import Mathlib

/-
Verification of the embedding storage/search core of convergence_ml
(src/services/ml/src/convergence_ml): the in-memory vector store, the
embedding service (change detection and batch orchestration), the
context-weighted query builder and the related-content finder.

Modelling conventions.
* Python floats are modelled as rationals; the float square root in
  np.linalg.norm is modelled by an arbitrary function norm : Vec -> Rat
  passed as a parameter, since only its vanishing behaviour and concrete
  exactly-rational values are relevant to the claims.  Concrete theorems
  instantiate it with exactNorm, which agrees with the real Euclidean
  norm whenever that norm is rational (all concrete inputs below).
* numpy division of a vector by a zero norm yields a NaN vector, and every
  comparison nan >= t is false; a cosine score against a zero-norm vector
  is therefore modelled as Option.none and such candidates are dropped,
  exactly as the NaN scores are dropped by the threshold test in the code.
* Python dicts are modelled as association lists looked up at the first
  matching key; dict display construction puts overriding keys first in
  lookup priority.
-/

deriving instance DecidableEq for Except

namespace ConvergenceML

/-- Embedding vectors: lists of rationals standing for numpy float arrays. -/
abbrev Vec := List ℚ

/-- np.dot of two vectors (claims only exercise equal-length vectors). -/
def dot (a b : Vec) : ℚ := (List.zipWith (fun x y => x * y) a b).sum

/-- Sum of squares of the entries: the square of the Euclidean norm. -/
def sumSq (v : Vec) : ℚ := dot v v

/-- The integer square root (greatest k with k * k ≤ n), via a structurally
recursive search so concrete instances reduce inside the kernel. -/
def natSqrt (n : Nat) : Nat := Nat.findGreatest (fun k => k * k ≤ n) n

/-- Exact rational square root when it exists: on inputs whose numerator and
denominator are perfect squares this is the true square root, which covers
every concrete vector used in the theorems. -/
def ratSqrtQ (q : ℚ) : ℚ := (natSqrt q.num.toNat : ℚ) / (natSqrt q.den : ℚ)

/-- A concrete instance of np.linalg.norm, exact on vectors whose squared
norm is a perfect square (such as [1,0], [2,0], [0,0]). -/
def exactNorm (v : Vec) : ℚ := ratSqrtQ (sumSq v)

/-- Python list slicing l[:k] for an int k: a nonnegative k takes the first
k elements; a negative k stops |k| elements before the end. -/
def pySlice (l : List α) (k : ℤ) : List α :=
  if 0 ≤ k then l.take k.toNat else l.take (l.length - (-k).toNat)

/-- Python/JSON metadata values as stored in the metadata dicts. -/
inductive Value where
  | vstr (s : String)
  | vnum (q : ℚ)
  | vbool (b : Bool)
  | vnone
  | vdict (d : List (String × Value))
deriving Repr

/-- Metadata dicts: association lists, first occurrence of a key wins. -/
abbrev Meta := List (String × Value)

mutual

/-- Python equality on metadata values (the == used by dict.get comparisons
and the metadata filter).  Claims never compare dict-valued entries, so the
structural comparison of the nested case is adequate. -/
def Value.beq : Value → Value → Bool
  | .vstr a, .vstr b => a == b
  | .vnum a, .vnum b => a == b
  | .vbool a, .vbool b => a == b
  | .vnone, .vnone => true
  | .vdict a, .vdict b => Value.beqDict a b
  | _, _ => false

/-- Structural comparison of dict payloads, used only by Value.beq. -/
def Value.beqDict : List (String × Value) → List (String × Value) → Bool
  | [], [] => true
  | (k₁, v₁) :: r₁, (k₂, v₂) :: r₂ =>
      k₁ == k₂ && Value.beq v₁ v₂ && Value.beqDict r₁ r₂
  | _, _ => false

end

/-- dict.get(k) with default None. -/
def pyGet (m : Meta) (k : String) : Value := (List.lookup k m).getD .vnone

/-- Python truthiness of a metadata value (bool(x)). -/
def Value.truthy : Value → Bool
  | .vstr s => !(s == "")
  | .vnum q => !(q == 0)
  | .vbool b => b
  | .vnone => false
  | .vdict d => !d.isEmpty

/-- str(x) on a metadata value, as used for the title/type/snippet echoes. -/
def Value.pyStr : Value → String
  | .vstr s => s
  | .vnum _ => "num"
  | .vbool b => if b then "True" else "False"
  | .vnone => "None"
  | .vdict _ => "dict"

/-- One stored record: document id, vector, metadata.  Models the pair of
parallel dicts _embeddings / _metadata of InMemoryVectorStore, which are
keyed identically on every write. -/
abbrev Entry := String × Vec × Meta

namespace InMemoryVectorStore

/-- A search hit: db/vector_store.py SearchResult.  The optional embedding
echo is never populated by the in-memory search and is omitted. -/
structure SearchResult where
  document_id : String
  score : ℚ
  metadata : Meta
deriving Repr

/-- Python dict assignment self._embeddings[id] = v: replace in place when
the key exists (keeping its insertion position), append otherwise. -/
def upsert : List Entry → String → Vec → Meta → List Entry
  | [], id, v, m => [(id, v, m)]
  | e :: rest, id, v, m =>
      if e.1 = id then (id, v, m) :: rest else e :: upsert rest id v m

/-- InMemoryVectorStore.add_embedding: unconditionally stores the vector and
the metadata (metadata or an empty dict); no check of any kind is made on
the length of the vector. -/
def add_embedding (entries : List Entry) (document_id : String) (embedding : Vec)
    (metadata : Option Meta) : List Entry :=
  upsert entries document_id embedding (metadata.getD [])

/-- InMemoryVectorStore.get_embedding: the stored vector and metadata. -/
def get_embedding (entries : List Entry) (document_id : String) :
    Option (Vec × Meta) :=
  List.lookup document_id entries

/-- The metadata filter test: all(doc_meta.get(k) == v for k, v in
filter_metadata.items()). -/
def matchesFilter (filt : Meta) (m : Meta) : Bool :=
  filt.all (fun kv => Value.beq (pyGet m kv.1) kv.2)

/-- The cosine score dot(query/|query|, emb/|emb|) = dot(query, emb) /
(|query| * |emb|).  When either norm is zero the numpy division produces a
NaN vector and the score is NaN, modelled as none. -/
def cosSimOpt (norm : Vec → ℚ) (query emb : Vec) : Option ℚ :=
  if norm query = 0 ∨ norm emb = 0 then none
  else some (dot query emb / (norm query * norm emb))

/-- The per-entry body of the search loop: skip entries failing the metadata
filter (applied before any scoring), then score and keep entries whose score
passes the threshold; a NaN score fails the nan >= threshold test. -/
def scoreEntry (norm : Vec → ℚ) (query : Vec) (threshold : ℚ) (filt : Meta)
    (e : Entry) : Option SearchResult :=
  if !filt.isEmpty && !matchesFilter filt e.2.2 then none
  else
    match cosSimOpt norm query e.2.1 with
    | none => none
    | some s => if threshold ≤ s then some ⟨e.1, s, e.2.2⟩ else none

/-- InMemoryVectorStore.search: empty store short-circuits to []; otherwise
filter, score and threshold every entry in insertion order, sort by
descending score (list.sort with reverse=True is a stable descending sort,
as is mergeSort under this comparison) and apply the Python slice [:top_k]. -/
def search (norm : Vec → ℚ) (entries : List Entry) (query : Vec) (top_k : ℤ)
    (threshold : ℚ) (filter_metadata : Meta) : List SearchResult :=
  if entries.isEmpty then []
  else
    let results := entries.filterMap (scoreEntry norm query threshold filter_metadata)
    pySlice (results.mergeSort (fun a b => decide (b.score ≤ a.score))) top_k

end InMemoryVectorStore

namespace EmbeddingGenerator

/-- The weighted combination focal_weight * embed(focal) + (1 - focal_weight)
* embed(context) computed by embed_with_context before normalization. -/
def combinedOf (gen : String → Vec) (focal_text context : String)
    (focal_weight : ℚ) : Vec :=
  List.zipWith (fun x y => focal_weight * x + (1 - focal_weight) * y)
    (gen focal_text) (gen context)

/-- models/sentence_transformer.py EmbeddingGenerator.embed_with_context:
embed both texts via the generator oracle gen, combine with the focal
weight, then divide by the norm of the combination.  The code performs no
zero check: when the norm is zero the numpy division silently yields a NaN
vector, modelled as none; no exception is raised on any path. -/
def embed_with_context (norm : Vec → ℚ) (gen : String → Vec)
    (focal_text context : String) (focal_weight : ℚ) : Option Vec :=
  let combined := combinedOf gen focal_text context focal_weight
  if norm combined = 0 then none
  else some (combined.map (fun x => x / norm combined))

end EmbeddingGenerator

namespace SimilarityService

/-- services/similarity_service.py SimilarityService.compute_similarity:
fetch both stored vectors, raising ValueError (modelled as Except.error)
when either is absent, then return dot(v1, v2) / (norm v1 * norm v2) - the
dot product of the two re-normalized vectors, with no clamping. -/
def compute_similarity (norm : Vec → ℚ) (entries : List Entry)
    (document_id_1 document_id_2 : String) : Except String ℚ :=
  match List.lookup document_id_1 entries with
  | none => .error ("Document not found: " ++ document_id_1)
  | some (v1, _) =>
    match List.lookup document_id_2 entries with
    | none => .error ("Document not found: " ++ document_id_2)
    | some (v2, _) => .ok (dot v1 v2 / (norm v1 * norm v2))

end SimilarityService

/-- The vector store as seen by the services through the VectorStore
interface: the stored entries (read by get_embedding, written by
add_embedding) plus an oracle saying whether the backend raises on the
write for a given document id (the in-memory backend never does; the
pgvector backend may raise VectorStoreError). -/
structure Backend where
  entries : List Entry
  putFail : String → Option String

/-- A successful backend upsert: only the entries change. -/
def Backend.putOk (be : Backend) (id : String) (v : Vec) (m : Meta) : Backend :=
  { be with entries := InMemoryVectorStore.upsert be.entries id v m }

/-- The fallible store write the services call: raises the oracle message
when the oracle says so (leaving the store unchanged), upserts otherwise. -/
def Backend.put (be : Backend) (id : String) (v : Vec) (m : Meta) :
    Except String Backend :=
  match be.putFail id with
  | some msg => .error msg
  | none => .ok (be.putOk id v m)

namespace EmbeddingService

/-- services/embedding_service.py EmbeddingResult. -/
structure EmbeddingResult where
  document_id : String
  embedding : Vec
  content_hash : String
  dimension : Nat
  metadata : Meta
deriving Repr

/-- One entry of the errors list of a batch result: the per-item shape
has document_id and error keys, the batch-level shape only batch_error. -/
inductive ErrEntry where
  | item (document_id error : String)
  | batch (error : String)
deriving Repr, DecidableEq

/-- True exactly on the per-item error shape. -/
def ErrEntry.isItem : ErrEntry → Bool
  | .item _ _ => true
  | .batch _ => false

/-- services/embedding_service.py BatchEmbeddingResult. -/
structure BatchEmbeddingResult where
  total : Nat
  successful : Nat
  failed : Nat
  skipped : Nat
  results : List EmbeddingResult
  errors : List ErrEntry
deriving Repr

/-- The full metadata dict written with every stored embedding:
content_hash plus the caller metadata, whose keys override on collision
(dict display semantics), hence the caller metadata has lookup priority. -/
def mkFullMeta (content_hash : String) (metadata : Option Meta) : Meta :=
  metadata.getD [] ++ [("content_hash", Value.vstr content_hash)]

/-- The skip test of embed_document and _is_unchanged: the stored metadata
has a content_hash equal to the hash of the new content. -/
def isUnchanged (existing_meta : Meta) (content_hash : String) : Bool :=
  Value.beq (pyGet existing_meta "content_hash") (.vstr content_hash)

/-- An input item of a batch: (document_id, content, metadata). -/
abbrev Doc := String × String × Option Meta

/-- _create_embedding_result. -/
def mkEmbeddingResult (doc_id : String) (embedding : Vec)
    (content_hash : String) (metadata : Meta) : EmbeddingResult :=
  ⟨doc_id, embedding, content_hash, embedding.length, metadata⟩

/-- The generate-and-store path of embed_document: one generator call, the
rebuilt full metadata, then the store write, whose failure propagates. -/
def embedGenerate (hash : String → String) (gen : String → Vec) (be : Backend)
    (document_id content : String) (metadata : Option Meta) :
    Nat × Except String (EmbeddingResult × Backend) :=
  match be.put document_id (gen content) (mkFullMeta (hash content) metadata) with
  | .error msg => (1, .error msg)
  | .ok be' =>
      (1, .ok (mkEmbeddingResult document_id (gen content) (hash content)
                 (mkFullMeta (hash content) metadata), be'))

/-- services/embedding_service.py EmbeddingService.embed_document, with the
sha256 fingerprint and the per-text generator as oracles.  Returns the
number of generator invocations performed together with either the raised
store error or the result and the updated store.  The skip path returns the
existing record (stored vector and stored metadata) with no generator call
and no write; the compute path makes exactly one generator call, writes the
vector with the rebuilt metadata, and propagates a write failure. -/
def embed_document (hash : String → String) (gen : String → Vec)
    (be : Backend) (document_id content : String) (metadata : Option Meta)
    (skip_if_unchanged : Bool) :
    Nat × Except String (EmbeddingResult × Backend) :=
  if skip_if_unchanged then
    match InMemoryVectorStore.get_embedding be.entries document_id with
    | some (v, existing_meta) =>
        if isUnchanged existing_meta (hash content) then
          (0, .ok (mkEmbeddingResult document_id v (hash content)
                     existing_meta, be))
        else embedGenerate hash gen be document_id content metadata
    | none => embedGenerate hash gen be document_id content metadata
  else embedGenerate hash gen be document_id content metadata

/-- The skip test applied to one batch item: skipping is requested and the
stored metadata carries the fingerprint of the (new) content. -/
def skips (hash : String → String) (be : Backend) (skip_if_unchanged : Bool)
    (doc_id content : String) : Bool :=
  skip_if_unchanged &&
    match InMemoryVectorStore.get_embedding be.entries doc_id with
    | some (_, existing_meta) => isUnchanged existing_meta (hash content)
    | none => false

/-- The result list appended for a skipped item: the stored record reused
with the new (equal) fingerprint.  Empty when nothing is stored, which
cannot happen when the skip test succeeded. -/
def skipRecord (hash : String → String) (be : Backend)
    (doc_id content : String) : List EmbeddingResult :=
  match InMemoryVectorStore.get_embedding be.entries doc_id with
  | some (v, existing_meta) =>
      [mkEmbeddingResult doc_id v (hash content) existing_meta]
  | none => []

/-- EmbeddingService._prepare_batch_documents: walk the batch in order,
recording every content hash keyed by id (a later duplicate id overwrites,
hence the entries of later items take lookup priority), appending a result
reusing the stored record for each unchanged document, and collecting the
rest as the pending documents to embed. -/
def prepareBatch (hash : String → String) (be : Backend) (skip_if_unchanged : Bool) :
    List Doc → List EmbeddingResult × List Doc × List (String × String)
  | [] => ([], [], [])
  | (doc_id, content, metadata) :: rest =>
    let t := prepareBatch hash be skip_if_unchanged rest
    if skips hash be skip_if_unchanged doc_id content then
      (skipRecord hash be doc_id content ++ t.1, t.2.1,
       t.2.2 ++ [(doc_id, hash content)])
    else
      (t.1, (doc_id, content, metadata) :: t.2.1,
       t.2.2 ++ [(doc_id, hash content)])

/-- content_hashes[doc_id]: every pending id was recorded by the prepare
pass, so the default is never reached. -/
def hashesGet (hashes : List (String × String)) (doc_id : String) : String :=
  (List.lookup doc_id hashes).getD ""

/-- The per-item loop of _process_batch_embeddings: the single bulk
generator call returns, per pending item, exactly the embedding of its text
(the generator oracle applied to the content); each item is stored via
_store_single_embedding, a write failure being recorded against the item id
while processing continues. -/
def processItems (gen : String → Vec) (hashes : List (String × String)) :
    Backend → List Doc → Backend × List EmbeddingResult × List ErrEntry
  | be, [] => (be, [], [])
  | be, (doc_id, content, metadata) :: rest =>
    match be.put doc_id (gen content)
        (mkFullMeta (hashesGet hashes doc_id) metadata) with
    | .error msg =>
        let t := processItems gen hashes be rest
        (t.1, t.2.1, .item doc_id msg :: t.2.2)
    | .ok be1 =>
        let t := processItems gen hashes be1 rest
        (t.1,
         mkEmbeddingResult doc_id (gen content) (hashesGet hashes doc_id)
           (mkFullMeta (hashesGet hashes doc_id) metadata) :: t.2.1,
         t.2.2)

/-- EmbeddingService.embed_documents_batch: prepare (skips), then, when
anything is pending, one bulk generator call - whose failure (genErr) is
caught and recorded as a single batch-level error - followed by the
per-item store loop; aggregate with successful = len(results) - skipped.
All exceptions are caught inside; the function always returns normally. -/
def embed_documents_batch (hash : String → String) (gen : String → Vec)
    (genErr : Option String) (be : Backend) (documents : List Doc)
    (skip_if_unchanged : Bool) : BatchEmbeddingResult × Backend :=
  let prep := prepareBatch hash be skip_if_unchanged documents
  let skipped := prep.1.length
  let step :=
    if prep.2.1.isEmpty then (be, [], [])
    else
      match genErr with
      | some msg => (be, [], [ErrEntry.batch msg])
      | none => processItems gen prep.2.2 be prep.2.1
  let results := prep.1 ++ step.2.1
  let successful := results.length - skipped
  (⟨documents.length, successful, step.2.2.length, skipped, results, step.2.2⟩,
   step.1)

end EmbeddingService

namespace HighlightService

/-- services/highlight_service.py RelatedDocument. -/
structure RelatedDocument where
  document_id : String
  score : ℚ
  title : Option String
  document_type : Option String
  snippet : Option String
  metadata : Meta
deriving Repr

/-- services/highlight_service.py HighlightResult. -/
structure HighlightResult where
  highlighted_text : String
  context : Option String
  related_documents : List RelatedDocument
  query_embedding_dimension : Nat
  total_searched : Nat
deriving Repr

/-- str(metadata.get(k, "")) or None: the empty string becomes None. -/
def strFieldOrNone (m : Meta) (k : String) : Option String :=
  let s := Value.pyStr ((List.lookup k m).getD (.vstr ""))
  if s = "" then none else some s

/-- The RelatedDocument built from one search hit. -/
def mkRelated (r : InMemoryVectorStore.SearchResult) : RelatedDocument :=
  ⟨r.document_id, r.score, strFieldOrNone r.metadata "title",
   strFieldOrNone r.metadata "document_type", strFieldOrNone r.metadata "snippet",
   r.metadata⟩

/-- The exclusion set: set(exclude_document_ids or []) plus the source
document id when that id is truthy (a non-empty string). -/
def excludeSet (source_document_id : Option String)
    (exclude_document_ids : List String) : List String :=
  (exclude_document_ids ++
    (match source_document_id with
     | some s => if s = "" then [] else [s]
     | none => [])).eraseDups

/-- The query embedding of find_related_content: the context-weighted
combination when a truthy (non-empty) context is given, the plain
generator embedding of the highlighted text otherwise.  The Bool flags the
NaN vector silently produced by embed_with_context on a zero combination;
the vector component then records the would-be entries so the length (the
reported embedding dimension) is preserved. -/
def queryPair (norm : Vec → ℚ) (gen : String → Vec) (highlighted_text : String)
    (context : Option String) (focal_weight : ℚ) : Vec × Bool :=
  match context with
  | some c =>
      if c = "" then (gen highlighted_text, false)
      else
        match EmbeddingGenerator.embed_with_context norm gen highlighted_text c
            focal_weight with
        | some v => (v, false)
        | none => (EmbeddingGenerator.combinedOf gen highlighted_text c
            focal_weight, true)
  | none => (gen highlighted_text, false)

/-- The result-collection loop: skip excluded ids, convert the rest, and
break as soon as top_k documents have been collected (the count check runs
after each append, so even top_k <= 0 yields one document when any survives
the exclusions).  cnt is the number of documents collected so far. -/
def collectRelated (excl : List String) (top_k : ℤ) :
    Nat → List InMemoryVectorStore.SearchResult → List RelatedDocument
  | _, [] => []
  | cnt, r :: rest =>
    if excl.contains r.document_id then collectRelated excl top_k cnt rest
    else if top_k ≤ ((cnt + 1 : ℕ) : ℤ) then [mkRelated r]
    else mkRelated r :: collectRelated excl top_k (cnt + 1) rest

/-- services/highlight_service.py HighlightService.find_related_content:
build the exclusion set, embed the query (context-weighted when a context
is present), over-fetch top_k + len(exclude_set) candidates - with a
metadata filter on document_type when requested - then collect results,
dropping excluded ids and stopping at top_k.  A NaN query vector makes
every cosine score NaN, so the search keeps no candidate. -/
def find_related_content (norm : Vec → ℚ) (gen : String → Vec)
    (entries : List Entry) (highlighted_text : String) (context : Option String)
    (source_document_id : Option String) (top_k : ℤ) (threshold : ℚ)
    (focal_weight : ℚ) (filter_document_type : Option String)
    (exclude_document_ids : List String) : HighlightResult :=
  let excl := excludeSet source_document_id exclude_document_ids
  let query := queryPair norm gen highlighted_text context focal_weight
  let filter_metadata : Meta :=
    match filter_document_type with
    | some t => if t = "" then [] else [("document_type", Value.vstr t)]
    | none => []
  let results :=
    if query.2 then []
    else InMemoryVectorStore.search norm entries query.1
      (top_k + (excl.length : ℤ)) threshold filter_metadata
  ⟨highlighted_text, context, collectRelated excl top_k 0 results,
   query.1.length, entries.length⟩

/-- The entity-type post-filter predicate of find_mentions: the metadata
must hold a dict under entity_types whose entry for the type is truthy. -/
def has_entity_type (m : Meta) (etype : String) : Bool :=
  match List.lookup "entity_types" m with
  | some (.vdict d) => ((List.lookup etype d).getD .vnone).truthy
  | _ => false

/-- The retrieval find_mentions performs before its post-filter: a
context-free find_related_content with threshold 0.6 and focal weight 1. -/
def findMentionsBase (norm : Vec → ℚ) (gen : String → Vec) (entries : List Entry)
    (entity_text : String) (source_document_id : Option String) (top_k : ℤ) :
    List RelatedDocument :=
  (find_related_content norm gen entries entity_text none source_document_id
    top_k (3 / 5) 1 none []).related_documents

/-- services/highlight_service.py HighlightService.find_mentions: the
context-free retrieval, then, for a truthy entity_type, the entity-type
post-filter - falling back to the unfiltered list when the filter would
keep nothing. -/
def find_mentions (norm : Vec → ℚ) (gen : String → Vec) (entries : List Entry)
    (entity_text : String) (entity_type : Option String)
    (source_document_id : Option String) (top_k : ℤ) : List RelatedDocument :=
  let base := findMentionsBase norm gen entries entity_text source_document_id top_k
  match entity_type with
  | some etype =>
      if etype = "" then base
      else
        let filtered := base.filter (fun d => has_entity_type d.metadata etype)
        if filtered.isEmpty then base else filtered
  | none => base

end HighlightService

/-! ### Shared lemmas about the embedded definitions -/

open InMemoryVectorStore EmbeddingService

theorem Backend.put_error_iff {be : Backend} {id : String} {v : Vec} {m : Meta}
    {msg : String} : be.put id v m = .error msg ↔ be.putFail id = some msg := by
  unfold Backend.put
  cases be.putFail id <;> simp

theorem Backend.put_ok_iff {be : Backend} {id : String} {v : Vec} {m : Meta}
    {be1 : Backend} :
    be.put id v m = .ok be1 ↔ be.putFail id = none ∧ be1 = be.putOk id v m := by
  unfold Backend.put
  cases be.putFail id <;> simp [eq_comm]

theorem Backend.putOk_putFail (be : Backend) (id : String) (v : Vec) (m : Meta) :
    (be.putOk id v m).putFail = be.putFail := rfl

theorem lookup_upsert_self (l : List Entry) (id : String) (v : Vec) (m : Meta) :
    List.lookup id (upsert l id v m) = some (v, m) := by
  induction l with
  | nil => simp [upsert, List.lookup]
  | cons e rest ih =>
    obtain ⟨a, b⟩ := e
    unfold upsert
    by_cases h : a = id
    · subst h; simp [List.lookup]
    · rw [if_neg h]
      have hba : (id == a) = false := beq_eq_false_iff_ne.mpr (Ne.symm h)
      simp [List.lookup, hba, ih]

theorem matchesFilter_nil (m : Meta) : matchesFilter [] m = true := rfl

theorem scoreEntry_none_of_norm_zero (norm : Vec → ℚ) (query : Vec)
    (threshold : ℚ) (filt : Meta) (e : Entry) (hq : norm query = 0) :
    scoreEntry norm query threshold filt e = none := by
  unfold scoreEntry cosSimOpt
  simp [hq]

theorem pySlice_sublist (l : List α) (k : ℤ) : List.Sublist (pySlice l k) l := by
  unfold pySlice
  split <;> exact List.take_sublist _ _

theorem pySlice_nil (k : ℤ) : pySlice ([] : List α) k = [] := by
  unfold pySlice
  split <;> simp

theorem scoreEntry_eq_of_matches (norm : Vec → ℚ) (query : Vec) (threshold : ℚ)
    (filt : Meta) (e : Entry) (h : matchesFilter filt e.2.2 = true) :
    scoreEntry norm query threshold filt e = scoreEntry norm query threshold [] e := by
  unfold scoreEntry
  simp [h]

theorem scoreEntry_none_of_not_matches (norm : Vec → ℚ) (query : Vec)
    (threshold : ℚ) (filt : Meta) (e : Entry)
    (h : matchesFilter filt e.2.2 = false) :
    scoreEntry norm query threshold filt e = none := by
  have hne : filt.isEmpty = false := by
    cases filt with
    | nil => exact absurd (matchesFilter_nil e.2.2) (by simp [h])
    | cons a l => rfl
  unfold scoreEntry
  simp [h, hne]

theorem scoreEntry_some_props (norm : Vec → ℚ) (query : Vec) (threshold : ℚ)
    (filt : Meta) (e : Entry) (r : SearchResult)
    (h : scoreEntry norm query threshold filt e = some r) :
    threshold ≤ r.score ∧ matchesFilter filt r.metadata = true := by
  by_cases hm : matchesFilter filt e.2.2 = true
  · rw [scoreEntry_eq_of_matches _ _ _ _ _ hm] at h
    unfold scoreEntry at h
    rw [if_neg (by simp)] at h
    cases hc : cosSimOpt norm query e.2.1 with
    | none => rw [hc] at h; exact absurd h (by simp)
    | some s =>
      rw [hc] at h
      dsimp only at h
      by_cases hts : threshold ≤ s
      · rw [if_pos hts] at h
        cases h
        exact ⟨hts, hm⟩
      · rw [if_neg hts] at h; exact absurd h (by simp)
  · rw [scoreEntry_none_of_not_matches _ _ _ _ _ (by simpa using hm)] at h
    exact absurd h (by simp)

theorem search_length_le (norm : Vec → ℚ) (entries : List Entry) (query : Vec)
    (top_k : ℤ) (threshold : ℚ) (filt : Meta) (hk : 0 ≤ top_k) :
    ((search norm entries query top_k threshold filt).length : ℤ) ≤ top_k := by
  unfold search
  split
  · simpa using hk
  · unfold pySlice
    rw [if_pos hk]
    have h1 := List.length_take_le top_k.toNat
      ((entries.filterMap (scoreEntry norm query threshold filt)).mergeSort
        (fun a b => decide (b.score ≤ a.score)))
    omega

theorem search_sorted (norm : Vec → ℚ) (entries : List Entry) (query : Vec)
    (top_k : ℤ) (threshold : ℚ) (filt : Meta) :
    (search norm entries query top_k threshold filt).Pairwise
      (fun a b => b.score ≤ a.score) := by
  unfold search
  split
  · simp
  · refine List.Pairwise.sublist (pySlice_sublist _ _) ?_
    refine List.Pairwise.imp (fun h => of_decide_eq_true h) ?_
    exact @List.sorted_mergeSort SearchResult
      (fun a b => decide (b.score ≤ a.score))
      (fun a b c h1 h2 => decide_eq_true
        (le_trans (of_decide_eq_true h2) (of_decide_eq_true h1)))
      (fun a b => by
        rcases le_total b.score a.score with h | h <;> simp [h])
      _

theorem mem_search_props (norm : Vec → ℚ) (entries : List Entry) (query : Vec)
    (top_k : ℤ) (threshold : ℚ) (filt : Meta) (r : SearchResult)
    (hr : r ∈ search norm entries query top_k threshold filt) :
    threshold ≤ r.score ∧ matchesFilter filt r.metadata = true := by
  unfold search at hr
  split at hr
  · exact absurd hr (by simp)
  · have h1 := (pySlice_sublist _ top_k).subset hr
    have h2 := List.mem_mergeSort.mp h1
    obtain ⟨e, _, hse⟩ := List.mem_filterMap.mp h2
    exact scoreEntry_some_props _ _ _ _ _ _ hse

theorem filterMap_scoreEntry_filter (norm : Vec → ℚ) (query : Vec)
    (threshold : ℚ) (filt : Meta) (entries : List Entry) :
    entries.filterMap (scoreEntry norm query threshold filt) =
      (entries.filter (fun e => matchesFilter filt e.2.2)).filterMap
        (scoreEntry norm query threshold []) := by
  induction entries with
  | nil => rfl
  | cons e rest ih =>
    rw [List.filterMap_cons, List.filter_cons]
    by_cases h : matchesFilter filt e.2.2 = true
    · rw [if_pos (by simpa using h), List.filterMap_cons, ih,
        scoreEntry_eq_of_matches _ _ _ _ _ h]
    · rw [if_neg (by simpa using h),
        scoreEntry_none_of_not_matches _ _ _ _ _ (by simpa using h)]
      exact ih

theorem search_filter_before_scoring (norm : Vec → ℚ) (entries : List Entry)
    (query : Vec) (top_k : ℤ) (threshold : ℚ) (filt : Meta) :
    search norm entries query top_k threshold filt =
      search norm (entries.filter (fun e => matchesFilter filt e.2.2)) query
        top_k threshold [] := by
  unfold search
  by_cases h0 : entries.isEmpty
  · have : entries = [] := List.isEmpty_iff.mp h0
    subst this
    simp
  · rw [if_neg (by simpa using h0)]
    by_cases h1 : (entries.filter (fun e => matchesFilter filt e.2.2)).isEmpty
    · rw [if_pos (by simpa using h1)]
      rw [filterMap_scoreEntry_filter, List.isEmpty_iff.mp h1]
      simp [pySlice_nil]
    · rw [if_neg (by simpa using h1), filterMap_scoreEntry_filter]

theorem skips_get_some (hash : String → String) (be : Backend) (skip : Bool)
    (doc_id content : String) (hs : skips hash be skip doc_id content = true) :
    ∃ v m, get_embedding be.entries doc_id = some (v, m) := by
  unfold skips at hs
  cases hget : get_embedding be.entries doc_id with
  | none => rw [hget] at hs; simp at hs
  | some p =>
    obtain ⟨v, m⟩ := p
    exact ⟨v, m, rfl⟩

theorem prepareBatch_mem_skip (hash : String → String) (be : Backend)
    (skip : Bool) (docs : List Doc) (doc_id content : String)
    (metadata : Option Meta) (hd : (doc_id, content, metadata) ∈ docs)
    (hs : skips hash be skip doc_id content = true) :
    ∃ er ∈ (prepareBatch hash be skip docs).1, er.document_id = doc_id := by
  induction docs with
  | nil => exact absurd hd (by simp)
  | cons d rest ih =>
    obtain ⟨id0, c0, m0⟩ := d
    unfold prepareBatch
    rcases List.mem_cons.mp hd with heq | htail
    · cases heq
      rw [if_pos hs]
      obtain ⟨v, m, hget⟩ := skips_get_some hash be skip doc_id content hs
      refine ⟨mkEmbeddingResult doc_id v (hash content) m, ?_, rfl⟩
      apply List.mem_append_left
      unfold skipRecord
      rw [hget]
      exact List.mem_singleton.mpr rfl
    · obtain ⟨er, hmem, hid⟩ := ih htail
      split
      · exact ⟨er, List.mem_append_right _ hmem, hid⟩
      · exact ⟨er, hmem, hid⟩

theorem prepareBatch_mem_pending (hash : String → String) (be : Backend)
    (skip : Bool) (docs : List Doc) (doc_id content : String)
    (metadata : Option Meta) (hd : (doc_id, content, metadata) ∈ docs)
    (hs : skips hash be skip doc_id content = false) :
    (doc_id, content, metadata) ∈ (prepareBatch hash be skip docs).2.1 := by
  induction docs with
  | nil => exact absurd hd (by simp)
  | cons d rest ih =>
    obtain ⟨id0, c0, m0⟩ := d
    unfold prepareBatch
    rcases List.mem_cons.mp hd with heq | htail
    · cases heq
      rw [if_neg (by simp [hs])]
      exact List.mem_cons_self _ _
    · have hmem := ih htail
      split
      · exact hmem
      · exact List.mem_cons_of_mem _ hmem

theorem processItems_mem_error (gen : String → Vec)
    (hashes : List (String × String)) (doc_id content : String)
    (metadata : Option Meta) (msg : String) (items : List Doc)
    (hd : (doc_id, content, metadata) ∈ items) :
    ∀ be : Backend, be.putFail doc_id = some msg →
      ErrEntry.item doc_id msg ∈ (processItems gen hashes be items).2.2 := by
  induction items with
  | nil => exact absurd hd (by simp)
  | cons d rest ih =>
    intro be hf
    obtain ⟨id0, c0, m0⟩ := d
    unfold processItems
    rcases List.mem_cons.mp hd with heq | htail
    · cases heq
      rw [Backend.put_error_iff.mpr hf]
      exact List.mem_cons_self _ _
    · cases hput : be.put id0 (gen c0) (mkFullMeta (hashesGet hashes id0) m0) with
      | error m1 =>
        exact List.mem_cons_of_mem _ (ih htail be hf)
      | ok be1 =>
        have hpf : be1.putFail doc_id = some msg := by
          obtain ⟨_, rfl⟩ := Backend.put_ok_iff.mp hput
          exact hf
        exact ih htail be1 hpf

theorem processItems_mem_ok (gen : String → Vec)
    (hashes : List (String × String)) (doc_id content : String)
    (metadata : Option Meta) (items : List Doc)
    (hd : (doc_id, content, metadata) ∈ items) :
    ∀ be : Backend, be.putFail doc_id = none →
      ∃ er ∈ (processItems gen hashes be items).2.1, er.document_id = doc_id := by
  induction items with
  | nil => exact absurd hd (by simp)
  | cons d rest ih =>
    intro be hf
    obtain ⟨id0, c0, m0⟩ := d
    unfold processItems
    rcases List.mem_cons.mp hd with heq | htail
    · cases heq
      have hok : be.put doc_id (gen content)
          (mkFullMeta (hashesGet hashes doc_id) metadata) =
            .ok (be.putOk doc_id (gen content)
              (mkFullMeta (hashesGet hashes doc_id) metadata)) :=
        Backend.put_ok_iff.mpr ⟨hf, rfl⟩
      rw [hok]
      exact ⟨_, List.mem_cons_self _ _, rfl⟩
    · cases hput : be.put id0 (gen c0) (mkFullMeta (hashesGet hashes id0) m0) with
      | error m1 =>
        exact ih htail be hf
      | ok be1 =>
        have hpf : be1.putFail doc_id = none := by
          obtain ⟨_, rfl⟩ := Backend.put_ok_iff.mp hput
          exact hf
        obtain ⟨er, hmem, hid⟩ := ih htail be1 hpf
        exact ⟨er, List.mem_cons_of_mem _ hmem, hid⟩

/-- The caller metadata is free of the reserved content_hash key, which the
data model reserves to the store (§3 of the design). -/
def reservedOk : Option Meta → Bool
  | none => true
  | some m => (List.lookup "content_hash" m).isNone

theorem isUnchanged_mkFullMeta (content_hash : String) (metadata : Option Meta)
    (hm : reservedOk metadata = true) :
    isUnchanged (mkFullMeta content_hash metadata) content_hash = true := by
  unfold isUnchanged mkFullMeta pyGet
  rw [List.lookup_append]
  have hnone : List.lookup "content_hash" (metadata.getD []) = none := by
    cases metadata with
    | none => rfl
    | some m => simpa [reservedOk, Option.isNone_iff_eq_none] using hm
  rw [hnone]
  simp [List.lookup, Value.beq]

/-- The skip path of embed_document as one equation: when the stored
fingerprint matches, no generator call and no write happen, and the stored
record is returned with the caller metadata ignored. -/
theorem embed_document_skip_eq (hash : String → String) (gen : String → Vec)
    (be : Backend) (document_id content : String) (metadata : Option Meta)
    (v : Vec) (meta : Meta)
    (hget : get_embedding be.entries document_id = some (v, meta))
    (hunch : isUnchanged meta (hash content) = true) :
    embed_document hash gen be document_id content metadata true =
      (0, .ok (mkEmbeddingResult document_id v (hash content) meta, be)) := by
  unfold embed_document
  rw [if_pos rfl, hget]
  dsimp only
  rw [if_pos hunch]

/-- The generate path of embed_document as one equation for a non-failing
backend write: one generator call, the vector stored with the rebuilt
metadata. -/
theorem embed_document_generate_eq (hash : String → String) (gen : String → Vec)
    (be : Backend) (document_id content : String) (metadata : Option Meta)
    (hput : be.putFail document_id = none)
    (hmiss :
      (∀ v meta, get_embedding be.entries document_id = some (v, meta) →
        isUnchanged meta (hash content) = false)) :
    embed_document hash gen be document_id content metadata true =
      (1, .ok (mkEmbeddingResult document_id (gen content) (hash content)
                 (mkFullMeta (hash content) metadata),
               be.putOk document_id (gen content)
                 (mkFullMeta (hash content) metadata))) := by
  have hgen : embedGenerate hash gen be document_id content metadata =
      (1, .ok (mkEmbeddingResult document_id (gen content) (hash content)
                 (mkFullMeta (hash content) metadata),
               be.putOk document_id (gen content)
                 (mkFullMeta (hash content) metadata))) := by
    unfold embedGenerate
    rw [Backend.put_ok_iff.mpr ⟨hput, rfl⟩]
  unfold embed_document
  rw [if_pos rfl]
  cases hget : get_embedding be.entries document_id with
  | none => exact hgen
  | some p =>
    obtain ⟨v, meta⟩ := p
    dsimp only
    rw [if_neg (by simp [hmiss v meta hget])]
    exact hgen

/-! ### Claim theorems -/

/-- C4: the spec requires a zero query vector (norm zero, cosine undefined)
to be reported as an error; InMemoryVectorStore.search has no guard - the
numpy division by the zero norm yields NaN scores, every candidate fails
the nan >= threshold test, and the call silently returns a plain (empty)
result list for every store state.  This theorem evaluates that code
behaviour, backing the code_bug verdict. -/
theorem search_zero_query_silent (norm : Vec → ℚ) (entries : List Entry)
    (query : Vec) (top_k : ℤ) (threshold : ℚ) (filt : Meta)
    (hq : norm query = 0) :
    search norm entries query top_k threshold filt = [] := by
  unfold search
  split
  · rfl
  · rw [List.filterMap_eq_nil_iff.mpr
      (fun e _ => scoreEntry_none_of_norm_zero norm query threshold filt e hq)]
    simp [pySlice_nil]

unseal Rat.mul Rat.inv Rat.add Rat.sub in
/-- Witness for C4 at a concrete nonempty store and the zero query. -/
theorem search_zero_query_silent_witness :
    exactNorm [0, 0] = 0 ∧
    search exactNorm [("a", [1, 0], [])] [0, 0] 10 0 [] = [] :=
  ⟨by decide, search_zero_query_silent exactNorm [("a", [1, 0], [])] [0, 0]
    10 0 [] (by decide)⟩

/-- C5: the claim says a write whose vector length differs from the
configured store dimension fails with DimensionMismatch leaving the store
unchanged; InMemoryVectorStore.add_embedding performs no dimension check at
all (and no DimensionMismatch error exists in the code), so storing a
1-dimensional vector into a store holding 3-dimensional vectors succeeds
and mutates the store.  This theorem evaluates the code at that failing
input, backing the code_bug verdict. -/
theorem add_embedding_no_dimension_check :
    add_embedding [("a", [1, 0, 0], [])] "b" [1] none =
      [("a", [1, 0, 0], []), ("b", [1], [])] := rfl

/-- C7: the spec requires an explicit error when the weighted combination
is the zero vector; embed_with_context normalizes unconditionally, so the
numpy division by the zero norm silently produces a NaN vector (modelled
none) on every such input and never raises.  This theorem evaluates that
code behaviour, backing the code_bug verdict. -/
theorem embed_with_context_zero_combined_silent (norm : Vec → ℚ)
    (gen : String → Vec) (focal_text context : String) (focal_weight : ℚ)
    (hz : norm (EmbeddingGenerator.combinedOf gen focal_text context
      focal_weight) = 0) :
    EmbeddingGenerator.embed_with_context norm gen focal_text context
      focal_weight = none := by
  unfold EmbeddingGenerator.embed_with_context
  simp [hz]

unseal Rat.mul Rat.inv Rat.add Rat.sub in
/-- Witness for C7: opposite focal and context embeddings at weight 1/2
combine to the zero vector and yield the silent NaN vector. -/
theorem embed_with_context_zero_combined_silent_witness :
    exactNorm (EmbeddingGenerator.combinedOf
      (fun s => if s = "focal" then [1, 0] else [-1, 0]) "focal" "ctx"
      (1 / 2)) = 0 ∧
    EmbeddingGenerator.embed_with_context exactNorm
      (fun s => if s = "focal" then [1, 0] else [-1, 0]) "focal" "ctx"
      (1 / 2) = none :=
  ⟨by decide, embed_with_context_zero_combined_silent exactNorm
    (fun s => if s = "focal" then [1, 0] else [-1, 0]) "focal" "ctx" (1 / 2)
    (by decide)⟩

/-- C9 (amended): compute_similarity raises for a missing id on either
side, and when both records exist it returns dot(v1, v2) divided by the
product of the two norms - the cosine of the re-normalized stored vectors,
unclamped - rather than the raw dot product of the stored vectors. -/
theorem compute_similarity_contract (norm : Vec → ℚ) (entries : List Entry)
    (id1 id2 : String) :
    (List.lookup id1 entries = none →
      SimilarityService.compute_similarity norm entries id1 id2 =
        .error ("Document not found: " ++ id1)) ∧
    (∀ v1 m1, List.lookup id1 entries = some (v1, m1) →
      List.lookup id2 entries = none →
      SimilarityService.compute_similarity norm entries id1 id2 =
        .error ("Document not found: " ++ id2)) ∧
    (∀ v1 m1 v2 m2, List.lookup id1 entries = some (v1, m1) →
      List.lookup id2 entries = some (v2, m2) →
      SimilarityService.compute_similarity norm entries id1 id2 =
        .ok (dot v1 v2 / (norm v1 * norm v2))) := by
  refine ⟨fun h1 => ?_, fun v1 m1 h1 h2 => ?_, fun v1 m1 v2 m2 h1 h2 => ?_⟩ <;>
    unfold SimilarityService.compute_similarity
  · rw [h1]
  · rw [h1]; dsimp only; rw [h2]
  · rw [h1]; dsimp only; rw [h2]

unseal Rat.mul Rat.inv Rat.add Rat.sub in
/-- Witness for C9: both records exist, and the returned value is the
normalized dot product, here -1: negative and returned unclamped. -/
theorem compute_similarity_contract_witness :
    SimilarityService.compute_similarity exactNorm
        [("a", [1, 0], []), ("b", [-1, 0], [])] "a" "b" =
      .ok (dot [1, 0] [-1, 0] / (exactNorm [1, 0] * exactNorm [-1, 0])) ∧
    dot [1, 0] [-1, 0] / (exactNorm [1, 0] * exactNorm [-1, 0]) = -1 :=
  ⟨(compute_similarity_contract exactNorm
      [("a", [1, 0], []), ("b", [-1, 0], [])] "a" "b").2.2
      [1, 0] [] [-1, 0] [] rfl rfl, by decide⟩

unseal Rat.mul Rat.inv Rat.add Rat.sub in
/-- Counterexample for C9 as stated: with stored vectors [2,0] and [1,0]
the raw dot product is 2, but the code divides by both norms and returns 1,
exactly as the real code does (both norms are rational here, so exactNorm
agrees with the float computation). -/
theorem compute_similarity_not_raw_dot_ce :
    SimilarityService.compute_similarity exactNorm
        [("a", [2, 0], []), ("b", [1, 0], [])] "a" "b" = .ok 1 ∧
    dot [2, 0] [1, 0] = 2 ∧
    SimilarityService.compute_similarity exactNorm
        [("a", [2, 0], []), ("b", [1, 0], [])] "a" "b" ≠
      .ok (dot [2, 0] [1, 0]) := by
  have hval : SimilarityService.compute_similarity exactNorm
      [("a", [2, 0], []), ("b", [1, 0], [])] "a" "b" = .ok 1 := by decide
  refine ⟨hval, by decide, fun h => ?_⟩
  have h3 : (1 : ℚ) = dot [2, 0] [1, 0] := Except.ok.inj (hval.symm.trans h)
  have h4 : dot [2, 0] [1, 0] = 2 := by decide
  rw [h4] at h3
  exact absurd h3 (by decide)

/-- C10: when the stored fingerprint matches the hash of the new content,
embed_document with skip_if_unchanged leaves the store untouched (the
backend is returned unchanged, so no write happens for any id), performs
zero generator calls, and returns the previously stored metadata - the
caller metadata argument does not occur on the right-hand side, so a
metadata-only change is never persisted. -/
theorem embed_document_skip_frame (hash : String → String) (gen : String → Vec)
    (be : Backend) (document_id content : String) (metadata : Option Meta)
    (v : Vec) (meta : Meta)
    (hget : get_embedding be.entries document_id = some (v, meta))
    (hunch : isUnchanged meta (hash content) = true) :
    embed_document hash gen be document_id content metadata true =
      (0, .ok (mkEmbeddingResult document_id v (hash content) meta, be)) :=
  embed_document_skip_eq hash gen be document_id content metadata v meta
    hget hunch

/-- Witness for C10 at a concrete store, with a caller metadata change that
is dropped: the result carries the stored metadata. -/
theorem embed_document_skip_frame_witness :
    embed_document (fun s => s) (fun _ => [1, 0])
      ⟨[("d", [0, 1], [("content_hash", .vstr "x"), ("k", .vstr "old")])],
        fun _ => none⟩
      "d" "x" (some [("k", .vstr "new")]) true =
      (0, .ok (mkEmbeddingResult "d" [0, 1] "x"
                 [("content_hash", .vstr "x"), ("k", .vstr "old")],
               ⟨[("d", [0, 1],
                   [("content_hash", .vstr "x"), ("k", .vstr "old")])],
                 fun _ => none⟩)) :=
  embed_document_skip_frame (fun s => s) (fun _ => [1, 0])
    ⟨[("d", [0, 1], [("content_hash", .vstr "x"), ("k", .vstr "old")])],
      fun _ => none⟩
    "d" "x" (some [("k", .vstr "new")]) [0, 1]
    [("content_hash", .vstr "x"), ("k", .vstr "old")] rfl rfl

/-- C1 (amended): for a nonnegative top_k, search returns at most top_k
results sorted by non-increasing score; every returned result passes the
inclusive threshold and satisfies every key=value equality of the metadata
filter; and the filter is applied before scoring - the search equals the
filter-free search over the store restricted to the matching documents, so
a non-matching document is never scored or returned.  For a negative top_k
the Python slice results[:top_k] drops |top_k| trailing results instead of
capping the count, refuting the unrestricted claim (see the
counterexample). -/
theorem search_contract (norm : Vec → ℚ) (entries : List Entry) (query : Vec)
    (top_k : ℤ) (threshold : ℚ) (filt : Meta) (hk : 0 ≤ top_k) :
    ((search norm entries query top_k threshold filt).length : ℤ) ≤ top_k ∧
    (search norm entries query top_k threshold filt).Pairwise
      (fun a b => b.score ≤ a.score) ∧
    (∀ r ∈ search norm entries query top_k threshold filt,
      threshold ≤ r.score) ∧
    (∀ r ∈ search norm entries query top_k threshold filt,
      matchesFilter filt r.metadata = true) ∧
    search norm entries query top_k threshold filt =
      search norm (entries.filter (fun e => matchesFilter filt e.2.2)) query
        top_k threshold [] :=
  ⟨search_length_le norm entries query top_k threshold filt hk,
   search_sorted norm entries query top_k threshold filt,
   fun r hr => (mem_search_props norm entries query top_k threshold filt r hr).1,
   fun r hr => (mem_search_props norm entries query top_k threshold filt r hr).2,
   search_filter_before_scoring norm entries query top_k threshold filt⟩

unseal Rat.mul Rat.inv Rat.add Rat.sub in
/-- Witness for C1 at a concrete store, query, filter and top_k = 2. -/
theorem search_contract_witness :
    (0 : ℤ) ≤ 2 ∧
    (((search exactNorm
        [("a", [1, 0], [("t", .vstr "n")]), ("b", [-1, 0], [("t", .vstr "m")])]
        [1, 0] 2 0 [("t", .vstr "n")]).length : ℤ) ≤ 2 ∧
     (search exactNorm
        [("a", [1, 0], [("t", .vstr "n")]), ("b", [-1, 0], [("t", .vstr "m")])]
        [1, 0] 2 0 [("t", .vstr "n")]).Pairwise
          (fun a b => b.score ≤ a.score) ∧
     (∀ r ∈ search exactNorm
        [("a", [1, 0], [("t", .vstr "n")]), ("b", [-1, 0], [("t", .vstr "m")])]
        [1, 0] 2 0 [("t", .vstr "n")], (0 : ℚ) ≤ r.score) ∧
     (∀ r ∈ search exactNorm
        [("a", [1, 0], [("t", .vstr "n")]), ("b", [-1, 0], [("t", .vstr "m")])]
        [1, 0] 2 0 [("t", .vstr "n")],
        matchesFilter [("t", .vstr "n")] r.metadata = true) ∧
     search exactNorm
        [("a", [1, 0], [("t", .vstr "n")]), ("b", [-1, 0], [("t", .vstr "m")])]
        [1, 0] 2 0 [("t", .vstr "n")] =
       search exactNorm
        ([("a", [1, 0], [("t", .vstr "n")]),
          ("b", [-1, 0], [("t", .vstr "m")])].filter
          (fun e => matchesFilter [("t", .vstr "n")] e.2.2)) [1, 0] 2 0 []) :=
  ⟨by decide, search_contract exactNorm
    [("a", [1, 0], [("t", .vstr "n")]), ("b", [-1, 0], [("t", .vstr "m")])]
    [1, 0] 2 0 [("t", .vstr "n")] (by decide)⟩

unseal List.merge List.mergeSort Rat.mul Rat.inv Rat.add Rat.sub in
/-- Counterexample for C1 as stated, at top_k = -1: two matching documents,
the Python slice returns one result, and 1 is not at most -1, so the
conjunction claimed for every top_k fails. -/
theorem search_contract_ce :
    ¬(((search exactNorm [("a", [1, 0], []), ("b", [1, 0], [])] [1, 0] (-1) 0
        []).length : ℤ) ≤ -1 ∧
      (search exactNorm [("a", [1, 0], []), ("b", [1, 0], [])] [1, 0] (-1) 0
        []).Pairwise (fun a b => b.score ≤ a.score) ∧
      (∀ r ∈ search exactNorm [("a", [1, 0], []), ("b", [1, 0], [])] [1, 0]
        (-1) 0 [], (0 : ℚ) ≤ r.score) ∧
      (∀ r ∈ search exactNorm [("a", [1, 0], []), ("b", [1, 0], [])] [1, 0]
        (-1) 0 [], matchesFilter [] r.metadata = true) ∧
      search exactNorm [("a", [1, 0], []), ("b", [1, 0], [])] [1, 0] (-1) 0
        [] =
        search exactNorm ([("a", [1, 0], []), ("b", [1, 0], [])].filter
          (fun e => matchesFilter [] e.2.2)) [1, 0] (-1) 0 []) :=
  fun h => absurd h.1 (by decide)

/-- C6: two embed_if_changed calls with the same id, content and metadata
(the caller metadata not using the reserved content_hash key, and the
backend write succeeding): the first call succeeds, and the second call
performs zero generator invocations and returns a vector exactly equal to
the vector returned by the first, also leaving the store exactly as the
first call left it. -/
theorem embed_if_changed_idempotent (hash : String → String)
    (gen : String → Vec) (be : Backend) (document_id content : String)
    (metadata : Option Meta) (hm : reservedOk metadata = true)
    (hput : be.putFail document_id = none) :
    ∃ er1 be1 er2 be2,
      (embed_document hash gen be document_id content metadata true).2 =
        .ok (er1, be1) ∧
      (embed_document hash gen be1 document_id content metadata true).1 = 0 ∧
      (embed_document hash gen be1 document_id content metadata true).2 =
        .ok (er2, be2) ∧
      er2.embedding = er1.embedding ∧ be2 = be1 := by
  have second : ∀ be1 : Backend,
      be1.entries = upsert be.entries document_id (gen content)
        (mkFullMeta (hash content) metadata) →
      embed_document hash gen be1 document_id content metadata true =
        (0, .ok (mkEmbeddingResult document_id (gen content) (hash content)
                   (mkFullMeta (hash content) metadata), be1)) := by
    intro be1 hentries
    have hget2 : get_embedding be1.entries document_id =
        some (gen content, mkFullMeta (hash content) metadata) := by
      rw [hentries]
      exact lookup_upsert_self be.entries document_id (gen content)
        (mkFullMeta (hash content) metadata)
    exact embed_document_skip_eq hash gen be1 document_id content metadata
      (gen content) (mkFullMeta (hash content) metadata) hget2
      (isUnchanged_mkFullMeta (hash content) metadata hm)
  cases hget : get_embedding be.entries document_id with
  | some p =>
    obtain ⟨v, meta⟩ := p
    by_cases hu : isUnchanged meta (hash content) = true
    · have h1 := embed_document_skip_eq hash gen be document_id content
        metadata v meta hget hu
      exact ⟨mkEmbeddingResult document_id v (hash content) meta, be,
        mkEmbeddingResult document_id v (hash content) meta, be,
        by rw [h1], by rw [h1], by rw [h1], rfl, rfl⟩
    · have h1 := embed_document_generate_eq hash gen be document_id content
        metadata hput
        (fun v' meta' hg => by
          rw [hget] at hg
          cases hg
          exact Bool.not_eq_true _ |>.mp hu)
      have h2 := second (be.putOk document_id (gen content)
        (mkFullMeta (hash content) metadata)) rfl
      exact ⟨mkEmbeddingResult document_id (gen content) (hash content)
          (mkFullMeta (hash content) metadata),
        be.putOk document_id (gen content) (mkFullMeta (hash content) metadata),
        mkEmbeddingResult document_id (gen content) (hash content)
          (mkFullMeta (hash content) metadata),
        be.putOk document_id (gen content) (mkFullMeta (hash content) metadata),
        by rw [h1], by rw [h2], by rw [h2], rfl, rfl⟩
  | none =>
    have h1 := embed_document_generate_eq hash gen be document_id content
      metadata hput
      (fun v' meta' hg => by rw [hget] at hg; cases hg)
    have h2 := second (be.putOk document_id (gen content)
      (mkFullMeta (hash content) metadata)) rfl
    exact ⟨mkEmbeddingResult document_id (gen content) (hash content)
        (mkFullMeta (hash content) metadata),
      be.putOk document_id (gen content) (mkFullMeta (hash content) metadata),
      mkEmbeddingResult document_id (gen content) (hash content)
        (mkFullMeta (hash content) metadata),
      be.putOk document_id (gen content) (mkFullMeta (hash content) metadata),
      by rw [h1], by rw [h2], by rw [h2], rfl, rfl⟩

/-- Witness for C6: an empty store, a constant generator and a non-failing
backend. -/
theorem embed_if_changed_idempotent_witness :
    reservedOk (some [("k", Value.vstr "v")]) = true ∧
    (Backend.putFail ⟨[], fun _ => none⟩ "d" = none) ∧
    (∃ er1 be1 er2 be2,
      (embed_document (fun s => s) (fun _ => [1, 0]) ⟨[], fun _ => none⟩
        "d" "text" (some [("k", Value.vstr "v")]) true).2 = .ok (er1, be1) ∧
      (embed_document (fun s => s) (fun _ => [1, 0]) be1
        "d" "text" (some [("k", Value.vstr "v")]) true).1 = 0 ∧
      (embed_document (fun s => s) (fun _ => [1, 0]) be1
        "d" "text" (some [("k", Value.vstr "v")]) true).2 = .ok (er2, be2) ∧
      er2.embedding = er1.embedding ∧ be2 = be1) :=
  ⟨rfl, rfl, embed_if_changed_idempotent (fun s => s) (fun _ => [1, 0])
    ⟨[], fun _ => none⟩ "d" "text" (some [("k", Value.vstr "v")]) rfl rfl⟩

theorem pending_ne_nil_of_mem {hash : String → String} {be : Backend}
    {skip : Bool} {documents : List Doc} {d : Doc}
    (h : d ∈ (prepareBatch hash be skip documents).2.1) :
    (prepareBatch hash be skip documents).2.1.isEmpty = false := by
  cases hpe : (prepareBatch hash be skip documents).2.1 with
  | nil => rw [hpe] at h; exact absurd h (by simp)
  | cons a l => rfl

/-- C2 (amended): when the bulk generator call succeeds, the batch result
satisfies total = number of inputs, failed = length of the error list, and
skipped + successful = number of per-item results - successful counts only
the newly stored items, not skipped + stored as the claim states (see the
counterexample); when the store write of a pending item fails, the error
list contains an entry keyed by that document id, while every other item
(skipped, or pending with a succeeding write) appears in results. -/
theorem embed_documents_batch_contract (hash : String → String)
    (gen : String → Vec) (be : Backend) (documents : List Doc) (skip : Bool) :
    (embed_documents_batch hash gen none be documents skip).1.total =
      documents.length ∧
    (embed_documents_batch hash gen none be documents skip).1.failed =
      (embed_documents_batch hash gen none be documents skip).1.errors.length ∧
    (embed_documents_batch hash gen none be documents skip).1.skipped +
        (embed_documents_batch hash gen none be documents skip).1.successful =
      (embed_documents_batch hash gen none be documents skip).1.results.length ∧
    (∀ doc_id content metadata msg, (doc_id, content, metadata) ∈ documents →
      skips hash be skip doc_id content = false →
      be.putFail doc_id = some msg →
      ErrEntry.item doc_id msg ∈
        (embed_documents_batch hash gen none be documents skip).1.errors) ∧
    (∀ doc_id content metadata, (doc_id, content, metadata) ∈ documents →
      (skips hash be skip doc_id content = true ∨ be.putFail doc_id = none) →
      ∃ er ∈ (embed_documents_batch hash gen none be documents skip).1.results,
        er.document_id = doc_id) := by
  refine ⟨rfl, rfl, ?_, ?_, ?_⟩
  · simp only [embed_documents_batch]
    rw [List.length_append]
    omega
  · intro doc_id content metadata msg hd hs hf
    have hpend := prepareBatch_mem_pending hash be skip documents doc_id
      content metadata hd hs
    have hne := pending_ne_nil_of_mem hpend
    simp only [embed_documents_batch, hne]
    exact processItems_mem_error gen _ doc_id content metadata msg _ hpend be hf
  · intro doc_id content metadata hd hor
    by_cases hs : skips hash be skip doc_id content = true
    · obtain ⟨er, hmem, hid⟩ := prepareBatch_mem_skip hash be skip documents
        doc_id content metadata hd hs
      refine ⟨er, ?_, hid⟩
      simp only [embed_documents_batch]
      exact List.mem_append_left _ hmem
    · have hf : be.putFail doc_id = none := by
        rcases hor with h | h
        · exact absurd h hs
        · exact h
      have hs' : skips hash be skip doc_id content = false := by
        simpa using hs
      have hpend := prepareBatch_mem_pending hash be skip documents doc_id
        content metadata hd hs'
      have hne := pending_ne_nil_of_mem hpend
      obtain ⟨er, hmem, hid⟩ := processItems_mem_ok gen
        (prepareBatch hash be skip documents).2.2 doc_id content metadata
        (prepareBatch hash be skip documents).2.1 hpend be hf
      refine ⟨er, ?_, hid⟩
      simp only [embed_documents_batch, hne]
      exact List.mem_append_right _ hmem

/-- Witness for C2: a two-item batch in which the first item is skipped as
unchanged and the write of the second fails: the failing item is recorded
in the error list keyed by its id. -/
theorem embed_documents_batch_contract_witness :
    skips (fun s => s)
      ⟨[("a", [1, 0], [("content_hash", Value.vstr "x")])],
        fun id => if id = "b" then some "disk full" else none⟩ true "b" "y" =
      false ∧
    Backend.putFail
      ⟨[("a", [1, 0], [("content_hash", Value.vstr "x")])],
        fun id => if id = "b" then some "disk full" else none⟩ "b" =
      some "disk full" ∧
    ErrEntry.item "b" "disk full" ∈
      (embed_documents_batch (fun s => s) (fun _ => [1, 0]) none
        ⟨[("a", [1, 0], [("content_hash", Value.vstr "x")])],
          fun id => if id = "b" then some "disk full" else none⟩
        [("a", "x", none), ("b", "y", none)] true).1.errors :=
  ⟨by decide, by decide,
    (embed_documents_batch_contract (fun s => s) (fun _ => [1, 0])
      ⟨[("a", [1, 0], [("content_hash", Value.vstr "x")])],
        fun id => if id = "b" then some "disk full" else none⟩
      [("a", "x", none), ("b", "y", none)] true).2.2.2.1 "b" "y" none
      "disk full" (List.Mem.tail _ (List.Mem.head _)) (by decide) (by decide)⟩

/-- Counterexample for C2 as stated: a one-item batch whose document is
skipped as unchanged: the code returns successful = 0 although skipped = 1
and stored (results beyond the skipped ones) = 0, so successful is not
skipped + stored. -/
theorem embed_documents_batch_successful_ce :
    (embed_documents_batch (fun s => s) (fun _ => [1, 0]) none
      ⟨[("a", [1, 0], [("content_hash", Value.vstr "x")])], fun _ => none⟩
      [("a", "x", none)] true).1.successful = 0 ∧
    (embed_documents_batch (fun s => s) (fun _ => [1, 0]) none
      ⟨[("a", [1, 0], [("content_hash", Value.vstr "x")])], fun _ => none⟩
      [("a", "x", none)] true).1.skipped = 1 ∧
    (embed_documents_batch (fun s => s) (fun _ => [1, 0]) none
      ⟨[("a", [1, 0], [("content_hash", Value.vstr "x")])], fun _ => none⟩
      [("a", "x", none)] true).1.results.length = 1 ∧
    (embed_documents_batch (fun s => s) (fun _ => [1, 0]) none
      ⟨[("a", [1, 0], [("content_hash", Value.vstr "x")])], fun _ => none⟩
      [("a", "x", none)] true).1.errors.length = 0 ∧
    ¬((embed_documents_batch (fun s => s) (fun _ => [1, 0]) none
      ⟨[("a", [1, 0], [("content_hash", Value.vstr "x")])], fun _ => none⟩
      [("a", "x", none)] true).1.successful =
      (embed_documents_batch (fun s => s) (fun _ => [1, 0]) none
        ⟨[("a", [1, 0], [("content_hash", Value.vstr "x")])], fun _ => none⟩
        [("a", "x", none)] true).1.skipped +
      ((embed_documents_batch (fun s => s) (fun _ => [1, 0]) none
        ⟨[("a", [1, 0], [("content_hash", Value.vstr "x")])], fun _ => none⟩
        [("a", "x", none)] true).1.results.length -
       (embed_documents_batch (fun s => s) (fun _ => [1, 0]) none
        ⟨[("a", [1, 0], [("content_hash", Value.vstr "x")])], fun _ => none⟩
        [("a", "x", none)] true).1.skipped)) := by
  decide

/-- C3 (amended): when the single bulk generator call fails and at least
one item is pending, the failure is caught - embed_documents_batch returns
normally, nothing is re-raised - and recorded as exactly one batch-level
error entry with no per-item attribution; the pending items are absent
from the results (which hold exactly the skipped records), failed = 1
regardless of the number of pending items, successful = 0, and the store
is unchanged. -/
theorem embed_documents_batch_bulk_failure (hash : String → String)
    (gen : String → Vec) (be : Backend) (documents : List Doc) (skip : Bool)
    (msg : String)
    (hp : (prepareBatch hash be skip documents).2.1.isEmpty = false) :
    (embed_documents_batch hash gen (some msg) be documents skip).1.errors =
      [ErrEntry.batch msg] ∧
    (embed_documents_batch hash gen (some msg) be documents skip).1.failed =
      1 ∧
    (embed_documents_batch hash gen (some msg) be documents skip).1.results =
      (prepareBatch hash be skip documents).1 ∧
    (embed_documents_batch hash gen (some msg) be documents skip).1.successful
      = 0 ∧
    (embed_documents_batch hash gen (some msg) be documents skip).2 = be := by
  simp only [embed_documents_batch, hp]
  refine ⟨rfl, rfl, List.append_nil _, ?_, rfl⟩
  simp

/-- Witness for C3 at a concrete two-item batch with an empty store. -/
theorem embed_documents_batch_bulk_failure_witness :
    (prepareBatch (fun s => s) ⟨[], fun _ => none⟩ true
      [("a", "x", none), ("b", "y", none)]).2.1.isEmpty = false ∧
    ((embed_documents_batch (fun s => s) (fun _ => [1, 0]) (some "boom")
        ⟨[], fun _ => none⟩ [("a", "x", none), ("b", "y", none)] true).1.errors
        = [ErrEntry.batch "boom"] ∧
     (embed_documents_batch (fun s => s) (fun _ => [1, 0]) (some "boom")
        ⟨[], fun _ => none⟩ [("a", "x", none), ("b", "y", none)] true).1.failed
        = 1 ∧
     (embed_documents_batch (fun s => s) (fun _ => [1, 0]) (some "boom")
        ⟨[], fun _ => none⟩ [("a", "x", none), ("b", "y", none)] true).1.results
        = (prepareBatch (fun s => s) ⟨[], fun _ => none⟩ true
            [("a", "x", none), ("b", "y", none)]).1 ∧
     (embed_documents_batch (fun s => s) (fun _ => [1, 0]) (some "boom")
        ⟨[], fun _ => none⟩ [("a", "x", none), ("b", "y", none)]
        true).1.successful = 0 ∧
     (embed_documents_batch (fun s => s) (fun _ => [1, 0]) (some "boom")
        ⟨[], fun _ => none⟩ [("a", "x", none), ("b", "y", none)] true).2 =
       ⟨[], fun _ => none⟩) :=
  ⟨by decide, embed_documents_batch_bulk_failure (fun s => s)
    (fun _ => [1, 0]) ⟨[], fun _ => none⟩
    [("a", "x", none), ("b", "y", none)] true "boom" (by decide)⟩

/-- Counterexample for C3 as stated: two pending items and a failing bulk
call give failed = 1 (not 2), a single batch-level error entry with no
per-item attribution, and no per-item failure marking - so not every
pending item is marked failed, and nothing is raised (the call returns a
normal result value). -/
theorem embed_documents_batch_bulk_failure_ce :
    (embed_documents_batch (fun s => s) (fun _ => [1, 0]) (some "boom")
      ⟨[], fun _ => none⟩ [("a", "x", none), ("b", "y", none)] true).1.failed
      = 1 ∧
    (∀ e ∈ (embed_documents_batch (fun s => s) (fun _ => [1, 0]) (some "boom")
      ⟨[], fun _ => none⟩ [("a", "x", none), ("b", "y", none)] true).1.errors,
      e.isItem = false) ∧
    (embed_documents_batch (fun s => s) (fun _ => [1, 0]) (some "boom")
      ⟨[], fun _ => none⟩ [("a", "x", none), ("b", "y", none)]
      true).1.results.isEmpty = true ∧
    ¬((embed_documents_batch (fun s => s) (fun _ => [1, 0]) (some "boom")
      ⟨[], fun _ => none⟩ [("a", "x", none), ("b", "y", none)] true).1.failed
      = 2) := by
  decide

/-- C8: for a truthy entity type, find_mentions computes the context-free
retrieval (threshold 0.6, focal weight 1) and post-filters it by a truthy
metadata.entity_types entry for that type; when no retrieved document
passes the post-filter, the unfiltered list is returned unchanged,
otherwise exactly the passing documents are returned. -/
theorem find_mentions_fallback (norm : Vec → ℚ) (gen : String → Vec)
    (entries : List Entry) (entity_text etype : String)
    (source_document_id : Option String) (top_k : ℤ) (hety : etype ≠ "") :
    ((∀ d ∈ HighlightService.findMentionsBase norm gen entries entity_text
        source_document_id top_k,
      HighlightService.has_entity_type d.metadata etype = false) →
      HighlightService.find_mentions norm gen entries entity_text (some etype)
        source_document_id top_k =
        HighlightService.findMentionsBase norm gen entries entity_text
          source_document_id top_k) ∧
    ((∃ d ∈ HighlightService.findMentionsBase norm gen entries entity_text
        source_document_id top_k,
      HighlightService.has_entity_type d.metadata etype = true) →
      HighlightService.find_mentions norm gen entries entity_text (some etype)
        source_document_id top_k =
        (HighlightService.findMentionsBase norm gen entries entity_text
          source_document_id top_k).filter
          (fun d => HighlightService.has_entity_type d.metadata etype)) := by
  constructor
  · intro hall
    unfold HighlightService.find_mentions
    dsimp only
    rw [if_neg hety]
    have hfil : (HighlightService.findMentionsBase norm gen entries entity_text
        source_document_id top_k).filter
        (fun d => HighlightService.has_entity_type d.metadata etype) = [] :=
      List.filter_eq_nil_iff.mpr (fun d hd => by simp [hall d hd])
    rw [hfil]
    simp
  · intro hex
    obtain ⟨d, hd, hp⟩ := hex
    unfold HighlightService.find_mentions
    dsimp only
    rw [if_neg hety]
    have hne : ((HighlightService.findMentionsBase norm gen entries entity_text
        source_document_id top_k).filter
        (fun d => HighlightService.has_entity_type d.metadata etype)).isEmpty
        = false := by
      rw [List.isEmpty_eq_false]
      intro hnil
      have := List.filter_eq_nil_iff.mp hnil d hd
      simp [hp] at this
    simp [hne]

unseal List.merge List.mergeSort Rat.mul Rat.inv Rat.add Rat.sub in
/-- Witness for C8: one stored document scoring 1 at threshold 0.6 with no
entity_types metadata: the post-filter would keep nothing, and the
unfiltered retrieval list is returned unchanged. -/
theorem find_mentions_fallback_witness :
    ("ORG" : String) ≠ "" ∧
    (∀ d ∈ HighlightService.findMentionsBase exactNorm (fun _ => [1, 0])
        [("d1", [1, 0], [("title", Value.vstr "T")])] "Acme" none 20,
      HighlightService.has_entity_type d.metadata "ORG" = false) ∧
    HighlightService.find_mentions exactNorm (fun _ => [1, 0])
        [("d1", [1, 0], [("title", Value.vstr "T")])] "Acme" (some "ORG")
        none 20 =
      HighlightService.findMentionsBase exactNorm (fun _ => [1, 0])
        [("d1", [1, 0], [("title", Value.vstr "T")])] "Acme" none 20 :=
  ⟨by decide, by decide,
    (find_mentions_fallback exactNorm (fun _ => [1, 0])
      [("d1", [1, 0], [("title", Value.vstr "T")])] "Acme" "ORG" none 20
      (by decide)).1 (by decide)⟩

end ConvergenceML
